import Mathlib

/-!
Shallow embedding of the connection/session manager and audio-processing
scheduler of the realtime-translator repository
(`src/websocket/titlingHandler.js`, class `TitlingHandler`).

Bytes are modelled as `Nat`; JS `Buffer`s as `List Nat`.  The JS `Map` of
active connections is modelled as an association list with `Map.set`
semantics (replace in place when the key is present, append otherwise) so
that iteration order matches insertion order, as `Array.from(map.entries())`
does in the source.  Connection handles (the `ws` objects used as map keys)
are modelled as `Nat`.  Wall-clock reads (`new Date()`, `Date.now()`) and
`uuidv4()` results are passed in as explicit parameters, since they are
environment inputs.  The asynchronous STT backend call inside
`processAudioBuffers` is modelled two ways: a synchronous one-tick function
parameterised by the backend outcome (for the per-tick functional claims),
and a small-step scheduler in which a tick only starts a call and a separate
completion event finishes it (for the concurrency claims).
-/

/-- One entry of `this.activeConnections`: the per-connection state object
built in `handleConnection`. -/
structure Connection where
  id : String
  connectedAt : Nat
  audioBuffer : List Nat
  isStreaming : Bool
  lastActivity : Nat
deriving DecidableEq, Repr

/-- The mutable state of the `TitlingHandler` class: the connection map, the
`isProcessing` flag of the timer state machine, and the configuration
constants set in the constructor. -/
structure TitlingHandler where
  activeConnections : List (Nat × Connection)
  isProcessing : Bool
  maxBufferSize : Nat := 1048576
  chunkSize : Nat := 1000
  processingInterval : Nat := 500
deriving DecidableEq, Repr

/-- JS `Map.get`: value at the first (unique) occurrence of the key. -/
def mapGet {α : Type} (m : List (Nat × α)) (k : Nat) : Option α :=
  match m with
  | [] => none
  | (k2, v) :: rest => if k2 = k then some v else mapGet rest k

/-- JS `Map.set`: replace in place when the key is present, append
otherwise (preserving iteration order of the remaining entries). -/
def mapSet {α : Type} (m : List (Nat × α)) (k : Nat) (v : α) : List (Nat × α) :=
  match m with
  | [] => [(k, v)]
  | (k2, v2) :: rest => if k2 = k then (k, v) :: rest else (k2, v2) :: mapSet rest k v

/-- JS `Map.delete`: remove the entry with the given key, if any. -/
def mapDelete {α : Type} (m : List (Nat × α)) (k : Nat) : List (Nat × α) :=
  m.filter (fun p => p.1 ≠ k)

/-- Messages the handler sends back to a single client socket
(`ws.send(...)` calls in the source). -/
inductive OutMsg where
  | connected (connectionId : String)
  | streamStarted
  | streamStopped
  | pong
  | errorMsg (message : String)
deriving DecidableEq, Repr

/-- Inbound client messages: the tagged union dispatched in `handleMessage`. -/
inductive ClientMessage where
  | audio (data : List Nat)
  | startStream
  | stopStream
  | ping
  | unknown (t : String)
deriving DecidableEq, Repr

/-- The connection state object allocated in `handleConnection`:
fresh id, connect time, empty buffer, `isStreaming = false`. -/
def freshConnection (connectionId : String) (now : Nat) : Connection :=
  { id := connectionId
    connectedAt := now
    audioBuffer := []
    isStreaming := false
    lastActivity := now }

/-- `startProcessing`: no-op when already processing, otherwise set the
`isProcessing` flag (the timer itself is modelled by the flag). -/
def startProcessing (h : TitlingHandler) : TitlingHandler :=
  if h.isProcessing then h else { h with isProcessing := true }

/-- `stopProcessing`: no-op when not processing, otherwise clear the flag
(`clearInterval`). -/
def stopProcessing (h : TitlingHandler) : TitlingHandler :=
  if h.isProcessing then { h with isProcessing := false } else h

/-- `handleConnection(ws)`: register a fresh connection state under the
handle, send the `connected` welcome message, and start the processing loop
when it is not already running.  `uuidv4()` and `new Date()` are the
`connectionId` and `now` parameters. -/
def handleConnection (h : TitlingHandler) (ws : Nat) (connectionId : String) (now : Nat) :
    TitlingHandler × List OutMsg :=
  let h1 := { h with
    activeConnections := mapSet h.activeConnections ws (freshConnection connectionId now) }
  let h2 := if h1.isProcessing then h1 else startProcessing h1
  (h2, [OutMsg.connected connectionId])

/-- `buffer.slice(-k)`: the suffix of the most recent `k` bytes (the whole
buffer when it is shorter than `k`). -/
def lastBytes (k : Nat) (l : List Nat) : List Nat :=
  l.drop (l.length - k)

/-- The overflow policy of `handleAudioData`: when the buffer exceeds `k`
bytes keep only the most recent `k` (`if (length > k) slice(-k)`). -/
def capBuffer (k : Nat) (l : List Nat) : List Nat :=
  if k < l.length then lastBytes k l else l

/-- `handleAudioData(ws, audioData)`: ignore the call when the connection is
unknown or not streaming; otherwise append the decoded bytes to the buffer
and, when the buffer exceeds `maxBufferSize`, keep only the most recent
`maxBufferSize` bytes (`buffer.slice(-maxBufferSize)`).  The base64 decode
is modelled as already done (`data` are the decoded bytes), so the catch
branch that reports a decode failure is unreachable here. -/
def handleAudioData (h : TitlingHandler) (ws : Nat) (data : List Nat) :
    TitlingHandler × List OutMsg :=
  match mapGet h.activeConnections ws with
  | none => (h, [])
  | some c =>
    if c.isStreaming then
      let buf2 := capBuffer h.maxBufferSize (c.audioBuffer ++ data)
      ({ h with activeConnections := mapSet h.activeConnections ws { c with audioBuffer := buf2 } }, [])
    else (h, [])

/-- `handleStartStream(ws)`: set `isStreaming := true`, reset the buffer to
empty, reply `stream_started`. -/
def handleStartStream (h : TitlingHandler) (ws : Nat) : TitlingHandler × List OutMsg :=
  match mapGet h.activeConnections ws with
  | none => (h, [])
  | some c =>
    ({ h with activeConnections :=
        mapSet h.activeConnections ws { c with isStreaming := true, audioBuffer := [] } },
     [OutMsg.streamStarted])

/-- `handleStopStream(ws)`: set `isStreaming := false`, reply
`stream_stopped`; the buffer is untouched. -/
def handleStopStream (h : TitlingHandler) (ws : Nat) : TitlingHandler × List OutMsg :=
  match mapGet h.activeConnections ws with
  | none => (h, [])
  | some c =>
    ({ h with activeConnections :=
        mapSet h.activeConnections ws { c with isStreaming := false } },
     [OutMsg.streamStopped])

/-- `handleMessage(ws, message)`: drop messages from unknown connections,
update `lastActivity`, then dispatch on the message type. -/
def handleMessage (h : TitlingHandler) (ws : Nat) (msg : ClientMessage) (now : Nat) :
    TitlingHandler × List OutMsg :=
  match mapGet h.activeConnections ws with
  | none => (h, [])
  | some c =>
    let h1 := { h with
      activeConnections := mapSet h.activeConnections ws { c with lastActivity := now } }
    match msg with
    | .audio d => handleAudioData h1 ws d
    | .startStream => handleStartStream h1 ws
    | .stopStream => handleStopStream h1 ws
    | .ping => (h1, [OutMsg.pong])
    | .unknown t => (h1, [OutMsg.errorMsg ("Unknown message type: " ++ t)])

/-- `handleDisconnection(ws)`: drop the connection (no-op when unknown),
then stop the processing loop when no connections remain. -/
def handleDisconnection (h : TitlingHandler) (ws : Nat) : TitlingHandler :=
  let h1 := { h with activeConnections := mapDelete h.activeConnections ws }
  if h1.activeConnections.length = 0 then stopProcessing h1 else h1

/-- The environment configuration read inside `processAudioBuffers`
(`SOURCE_LANGUAGE`, `TARGET_LANGUAGE`, `ENABLE_TRANSLATION`). -/
structure Config where
  sourceLanguage : String
  targetLanguage : String
  enableTranslation : Bool
deriving DecidableEq, Repr

/-- The fields of an STT backend result that `processAudioBuffers` reads.
`confidence` is an opaque pass-through value (a float in the source). -/
structure SttResult where
  text : String
  translatedText : Option String
  confidence : Nat
  language : String
deriving DecidableEq, Repr

/-- Outcome of one awaited `sttService.processAudio` call: resolution with
a result or `null` (absent), or rejection with an error. -/
inductive SttOutcome where
  | success (result : Option SttResult)
  | failure (err : String)
deriving DecidableEq, Repr

/-- The `subtitle` event payload built in `processAudioBuffers`. -/
structure SubtitleEvent where
  id : String
  text : String
  translatedText : Option String
  confidence : Nat
  timestamp : Nat
  connectionId : String
  language : String
deriving DecidableEq, Repr

/-- Events emitted on the handler (`this.emit(...)`): `subtitle` or `error`. -/
inductive Event where
  | subtitle (s : SubtitleEvent)
  | error (message : String)
deriving DecidableEq, Repr

/-- One call handed to `sttService.processAudio`: the audio chunk and the
options object. -/
structure BackendCall where
  audio : List Nat
  connectionId : String
  sourceLanguage : String
  targetLanguage : String
  enableTranslation : Bool
deriving DecidableEq, Repr

/-- The `activeStreams` selection in `processAudioBuffers`: connections with
`isStreaming` and a non-empty buffer, in map iteration order. -/
def activeStreams (h : TitlingHandler) : List (Nat × Connection) :=
  h.activeConnections.filter (fun p => p.2.isStreaming && decide (0 < p.2.audioBuffer.length))

/-- Result of one tick: the updated handler, the emitted events, and the
backend calls issued. -/
structure TickResult where
  handler : TitlingHandler
  events : List Event
  calls : List BackendCall
deriving DecidableEq, Repr

/-- One tick of `processAudioBuffers`, with the backend call completing
synchronously with the given `outcome`.  `freshId` is the `uuidv4()` for the
subtitle id and `now` the timestamp.  The first active stream is selected;
when its buffer holds at least `chunkSize` bytes the chunk is sliced off the
front, handed to the backend, and the outcome turned into events. -/
def processAudioBuffers (h : TitlingHandler) (cfg : Config) (outcome : SttOutcome)
    (freshId : String) (now : Nat) : TickResult :=
  match activeStreams h with
  | [] => { handler := h, events := [], calls := [] }
  | (ws, c) :: _ =>
    if h.chunkSize ≤ c.audioBuffer.length then
      let audioChunk := c.audioBuffer.take h.chunkSize
      let h2 := { h with
        activeConnections := mapSet h.activeConnections ws { c with audioBuffer := c.audioBuffer.drop h.chunkSize } }
      let call : BackendCall :=
        { audio := audioChunk
          connectionId := c.id
          sourceLanguage := cfg.sourceLanguage
          targetLanguage := cfg.targetLanguage
          enableTranslation := cfg.enableTranslation }
      match outcome with
      | .success (some res) =>
        if res.text = "" then { handler := h2, events := [], calls := [call] }
        else
          { handler := h2
            events := [Event.subtitle
              { id := freshId
                text := res.text
                translatedText := res.translatedText
                confidence := res.confidence
                timestamp := now
                connectionId := c.id
                language := res.language }]
            calls := [call] }
      | .success none => { handler := h2, events := [], calls := [call] }
      | .failure e => { handler := h2, events := [Event.error e], calls := [call] }
    else { handler := h, events := [], calls := [] }

/-- Iterate `handleAudioData` over a sequence of audio payloads for one
connection, collecting the replies. -/
def runAppends (h : TitlingHandler) (ws : Nat) : List (List Nat) → TitlingHandler × List OutMsg
  | [] => (h, [])
  | a :: rest =>
    let r := handleAudioData h ws a
    let r2 := runAppends r.1 ws rest
    (r2.1, r.2 ++ r2.2)

/-- Run `n` consecutive ticks whose backend calls all resolve with the
absent result (`null`), collecting the emitted events. -/
def runAbsentTicks (h : TitlingHandler) (cfg : Config) (freshId : String) (now : Nat) :
    Nat → TitlingHandler × List Event
  | 0 => (h, [])
  | n + 1 =>
    let r := processAudioBuffers h cfg (SttOutcome.success none) freshId now
    let rest := runAbsentTicks r.handler cfg freshId now n
    (rest.1, r.events ++ rest.2)

/-- The handler state right after the constructor: no connections, timer
not running. -/
def initialHandler : TitlingHandler :=
  { activeConnections := [], isProcessing := false }

/-- Connection lifecycle events for the scheduler start/stop state machine. -/
inductive ConnEvent where
  | openConn (ws : Nat) (connectionId : String) (now : Nat)
  | closeConn (ws : Nat)
deriving DecidableEq, Repr

/-- Apply one lifecycle event (`handleConnection` / `handleDisconnection`). -/
def applyConnEvent (h : TitlingHandler) : ConnEvent → TitlingHandler
  | .openConn ws cid now => (handleConnection h ws cid now).1
  | .closeConn ws => handleDisconnection h ws

/-- Run a sequence of lifecycle events from a handler state. -/
def runConnEvents (h : TitlingHandler) (es : List ConnEvent) : TitlingHandler :=
  es.foldl applyConnEvent h

/-!
Small-step scheduler model for the concurrency claims.  A tick executes the
synchronous prefix of `processAudioBuffers` up to the `await`: it drains the
chunk and starts a backend call, recorded in `inflight`.  A separate
`complete` event resolves an outstanding call (running the continuation,
which only emits events and does not change the handler state). -/

/-- Handler state plus the multiset of connection handles with an
outstanding (started, not yet resolved) `processAudio` call. -/
structure SchedState where
  handler : TitlingHandler
  inflight : List Nat
deriving DecidableEq, Repr

/-- Interleaving events: connection I/O callbacks, timer ticks, backend
call completions. -/
inductive SchedEvent where
  | connect (ws : Nat) (connectionId : String) (now : Nat)
  | disconnect (ws : Nat)
  | clientMsg (ws : Nat) (m : ClientMessage) (now : Nat)
  | tick
  | complete (i : Nat)
deriving DecidableEq, Repr

/-- The synchronous prefix of a tick: fires only while the timer runs;
selects the first active stream; when its buffer holds at least `chunkSize`
bytes, slices the chunk off the front and starts a backend call for that
connection.  The source holds no per-connection guard here. -/
def tickStart (s : SchedState) : SchedState :=
  if s.handler.isProcessing then
    match activeStreams s.handler with
    | [] => s
    | (ws, c) :: _ =>
      if s.handler.chunkSize ≤ c.audioBuffer.length then
        { handler := { s.handler with
            activeConnections := mapSet s.handler.activeConnections ws { c with audioBuffer := c.audioBuffer.drop s.handler.chunkSize } }
          inflight := s.inflight ++ [ws] }
      else s
  else s

/-- One step of the interleaving semantics. -/
def stepSched (s : SchedState) : SchedEvent → SchedState
  | .connect ws cid now => { s with handler := (handleConnection s.handler ws cid now).1 }
  | .disconnect ws => { s with handler := handleDisconnection s.handler ws }
  | .clientMsg ws m now => { s with handler := (handleMessage s.handler ws m now).1 }
  | .tick => tickStart s
  | .complete i => { s with inflight := s.inflight.eraseIdx i }

/-- Run a sequence of interleaving events. -/
def runSched (s : SchedState) (es : List SchedEvent) : SchedState :=
  es.foldl stepSched s

/-! ### Demonstration states used by the concrete witnesses -/

/-- A connection that is currently streaming with a non-empty buffer. -/
def demoConnection : Connection :=
  { id := "s1", connectedAt := 0, audioBuffer := [1, 2, 3], isStreaming := true, lastActivity := 0 }

/-- A handler with one streaming connection registered under handle 0. -/
def demoHandler : TitlingHandler :=
  { activeConnections := [(0, demoConnection)], isProcessing := true }

/-- A connection that is not streaming. -/
def idleConnection : Connection :=
  { id := "s2", connectedAt := 0, audioBuffer := [7, 8], isStreaming := false, lastActivity := 0 }

/-- A handler with one non-streaming connection registered under handle 1. -/
def idleHandler : TitlingHandler :=
  { activeConnections := [(1, idleConnection)], isProcessing := true }

/-- A stale session already registered under handle 0. -/
def staleConnection : Connection :=
  { id := "old", connectedAt := 1, audioBuffer := [9], isStreaming := true, lastActivity := 2 }

/-- A handler already holding `staleConnection` under handle 0. -/
def busyHandler : TitlingHandler :=
  { activeConnections := [(0, staleConnection)], isProcessing := true }

/-- A streaming connection with an empty buffer, as right after
`start_stream`. -/
def tinyConnection : Connection :=
  { id := "t", connectedAt := 0, audioBuffer := [], isStreaming := true, lastActivity := 0 }

/-- A handler with a small buffer cap (3 bytes) holding `tinyConnection`
under handle 0, to exercise the overflow policy concretely. -/
def tinyHandler : TitlingHandler :=
  { activeConnections := [(0, tinyConnection)], isProcessing := true,
    maxBufferSize := 3, chunkSize := 2 }

/-- A streaming connection holding five buffered bytes. -/
def drainConnection : Connection :=
  { id := "d", connectedAt := 0, audioBuffer := [10, 11, 12, 13, 14], isStreaming := true,
    lastActivity := 0 }

/-- A handler with a 2-byte chunk size holding `drainConnection` under
handle 2, to exercise the drain path concretely. -/
def drainHandler : TitlingHandler :=
  { activeConnections := [(2, drainConnection)], isProcessing := true,
    maxBufferSize := 100, chunkSize := 2 }

/-- A concrete processing configuration. -/
def demoConfig : Config :=
  { sourceLanguage := "sr", targetLanguage := "en", enableTranslation := true }

/-- A concrete backend result with non-empty text. -/
def demoResult : SttResult :=
  { text := "zdravo", translatedText := some "hello", confidence := 9, language := "sr" }

/-! ### Auxiliary lemmas about the map model -/

theorem mapGet_mapSet_self {α : Type} (m : List (Nat × α)) (k : Nat) (v : α) :
    mapGet (mapSet m k v) k = some v := by
  induction m with
  | nil => simp [mapGet, mapSet]
  | cons p rest ih =>
    obtain ⟨k2, v2⟩ := p
    by_cases hk : k2 = k
    · simp [mapGet, mapSet, hk]
    · simp [mapGet, mapSet, hk, ih]

theorem mapGet_mapSet_ne {α : Type} (m : List (Nat × α)) (k q : Nat) (v : α) (hq : q ≠ k) :
    mapGet (mapSet m k v) q = mapGet m q := by
  induction m with
  | nil => simp [mapGet, mapSet, Ne.symm hq]
  | cons p rest ih =>
    obtain ⟨k2, v2⟩ := p
    by_cases hk : k2 = k
    · subst hk
      simp [mapGet, mapSet, Ne.symm hq]
    · simp only [mapSet, if_neg hk, mapGet]
      by_cases hk2 : k2 = q <;> simp [hk2, ih]

theorem mapSet_ne_nil {α : Type} (m : List (Nat × α)) (k : Nat) (v : α) :
    mapSet m k v ≠ [] := by
  cases m with
  | nil => simp [mapSet]
  | cons p rest =>
    obtain ⟨k2, v2⟩ := p
    by_cases hk : k2 = k <;> simp [mapSet, hk]

theorem mapGet_eq_of_mem_nodup {α : Type} (m : List (Nat × α)) (k : Nat) (v : α)
    (hnd : (m.map Prod.fst).Nodup) (hmem : (k, v) ∈ m) : mapGet m k = some v := by
  induction m with
  | nil => cases hmem
  | cons p rest ih =>
    obtain ⟨k2, v2⟩ := p
    rcases List.mem_cons.mp hmem with heq | hrest
    · cases heq
      simp [mapGet]
    · have hk2 : k2 ≠ k := by
        intro hkk
        subst hkk
        have : k2 ∈ rest.map Prod.fst := List.mem_map.mpr ⟨(k2, v), hrest, rfl⟩
        exact (List.nodup_cons.mp hnd).1 this
      simp only [mapGet, if_neg hk2]
      exact ih (List.nodup_cons.mp hnd).2 hrest

theorem map_fst_mapSet {α : Type} (m : List (Nat × α)) (k : Nat) (v w : α)
    (hget : mapGet m k = some w) :
    (mapSet m k v).map Prod.fst = m.map Prod.fst := by
  induction m with
  | nil => simp [mapGet] at hget
  | cons p rest ih =>
    obtain ⟨k2, v2⟩ := p
    by_cases hk : k2 = k
    · simp [mapSet, hk]
    · simp only [mapGet, if_neg hk] at hget
      simp [mapSet, hk, ih hget]

theorem activeStreams_head_mem (h : TitlingHandler) (ws : Nat) (c : Connection)
    (rest : List (Nat × Connection)) (hsel : activeStreams h = (ws, c) :: rest) :
    (ws, c) ∈ h.activeConnections ∧ c.isStreaming = true ∧ 0 < c.audioBuffer.length := by
  have hmem : (ws, c) ∈ activeStreams h := by
    rw [hsel]; exact List.mem_cons_self _ _
  unfold activeStreams at hmem
  have h2 := List.mem_filter.mp hmem
  refine ⟨h2.1, ?_, ?_⟩
  · have := h2.2
    simp only [Bool.and_eq_true, decide_eq_true_eq] at this
    exact this.1
  · have := h2.2
    simp only [Bool.and_eq_true, decide_eq_true_eq] at this
    exact this.2

/-! ### C4: connection open -/

/-- C4 counterexample: `handleConnection` on an already-registered handle
does not fail; it silently replaces the existing session with a fresh one,
so the claim that open fails on a registered handle (and never silently
replaces) is false on the code. -/
theorem open_replaces_registered_handle :
    mapGet busyHandler.activeConnections 0 = some staleConnection ∧
    mapGet (handleConnection busyHandler 0 "fresh" 7).1.activeConnections 0 =
      some (freshConnection "fresh" 7) ∧
    freshConnection "fresh" 7 ≠ staleConnection := by
  refine ⟨by decide, by decide, by decide⟩

/-- C4 amended: `handleConnection` always registers a fresh session with
`isStreaming = false`, an empty buffer and the connect time recorded, sends
the `connected` welcome message, and leaves the processing loop running; it
never fails, and an already-registered handle is silently overwritten by
the fresh session. -/
theorem open_always_registers_fresh (h : TitlingHandler) (ws : Nat) (cid : String) (now : Nat) :
    mapGet (handleConnection h ws cid now).1.activeConnections ws =
      some (freshConnection cid now) ∧
    (freshConnection cid now).isStreaming = false ∧
    (freshConnection cid now).audioBuffer = [] ∧
    (freshConnection cid now).connectedAt = now ∧
    (handleConnection h ws cid now).1.isProcessing = true ∧
    (handleConnection h ws cid now).2 = [OutMsg.connected cid] := by
  unfold handleConnection startProcessing
  by_cases hp : h.isProcessing <;>
    simp [hp, mapGet_mapSet_self, freshConnection]

/-! ### C6: start_stream resets the buffer -/

/-- C6: for a registered session, the `start_stream` message sets
`isStreaming` to true and leaves the buffer empty immediately afterwards,
regardless of its prior contents, replying `stream_started`. -/
theorem start_stream_resets_buffer (h : TitlingHandler) (ws : Nat) (c : Connection) (now : Nat)
    (hget : mapGet h.activeConnections ws = some c) :
    mapGet (handleMessage h ws ClientMessage.startStream now).1.activeConnections ws =
      some { c with isStreaming := true, audioBuffer := [], lastActivity := now } ∧
    (handleMessage h ws ClientMessage.startStream now).2 = [OutMsg.streamStarted] := by
  unfold handleMessage handleStartStream
  rw [hget]
  simp [mapGet_mapSet_self]

/-- C6 witness: concrete run on `demoHandler`, whose session holds three
buffered bytes before the `start_stream` message. -/
theorem start_stream_resets_buffer_witness :
    mapGet (handleMessage demoHandler 0 ClientMessage.startStream 5).1.activeConnections 0 =
      some { demoConnection with isStreaming := true, audioBuffer := [], lastActivity := 5 } ∧
    (handleMessage demoHandler 0 ClientMessage.startStream 5).2 = [OutMsg.streamStarted] :=
  start_stream_resets_buffer demoHandler 0 demoConnection 5 (by decide)

/-! ### C7: audio while not streaming is dropped silently -/

/-- C7: while a registered session has `isStreaming = false`, any sequence
of `handleAudioData` calls leaves the whole handler state unchanged (in
particular the buffer keeps its length and content) and sends no reply and
no error to the client. -/
theorem appends_while_not_streaming_noop (h : TitlingHandler) (ws : Nat) (c : Connection)
    (hget : mapGet h.activeConnections ws = some c) (hs : c.isStreaming = false)
    (as : List (List Nat)) :
    runAppends h ws as = (h, []) := by
  induction as with
  | nil => rfl
  | cons a rest ih =>
    have hstep : handleAudioData h ws a = (h, []) := by
      unfold handleAudioData
      rw [hget]
      simp [hs]
    simp [runAppends, hstep, ih]

/-- C7 witness: three audio payloads sent to the non-streaming session of
`idleHandler` leave the handler untouched and produce no replies. -/
theorem appends_while_not_streaming_noop_witness :
    runAppends idleHandler 1 [[1, 2, 3], [4], [5, 6]] = (idleHandler, []) :=
  appends_while_not_streaming_noop idleHandler 1 idleConnection (by decide) (by decide)
    [[1, 2, 3], [4], [5, 6]]

/-! ### C8: scheduler timer state machine -/

/-- C8: after any sequence of connection opens and closes from the initial
state, the processing timer is running exactly when at least one session is
registered; in particular the scheduler never ticks while the registry is
empty, the first open starts the timer, and emptying the registry stops it. -/
theorem scheduler_active_iff_sessions (es : List ConnEvent) :
    (runConnEvents initialHandler es).isProcessing = true ↔
      (runConnEvents initialHandler es).activeConnections ≠ [] := by
  have key : ∀ (es : List ConnEvent) (h : TitlingHandler),
      (h.isProcessing = true ↔ h.activeConnections ≠ []) →
      ((runConnEvents h es).isProcessing = true ↔
        (runConnEvents h es).activeConnections ≠ []) := by
    intro es
    induction es with
    | nil => intro h hh; exact hh
    | cons e rest ih =>
      intro h hh
      show (runConnEvents (applyConnEvent h e) rest).isProcessing = true ↔
        (runConnEvents (applyConnEvent h e) rest).activeConnections ≠ []
      apply ih
      cases e with
      | openConn ws cid now =>
        simp only [applyConnEvent, handleConnection, startProcessing]
        by_cases hp : h.isProcessing <;> simp [hp, mapSet_ne_nil]
      | closeConn ws =>
        simp only [applyConnEvent, handleDisconnection, stopProcessing]
        by_cases hlen : (mapDelete h.activeConnections ws).length = 0
        · have hnil : mapDelete h.activeConnections ws = [] := List.length_eq_zero.mp hlen
          by_cases hp : h.isProcessing <;> simp [hlen, hp, hnil]
        · have hne : mapDelete h.activeConnections ws ≠ [] := by
            intro hcon; exact hlen (by simp [hcon])
          have hconn : h.activeConnections ≠ [] := by
            intro hcon
            apply hne
            simp [mapDelete, hcon]
          simp [hlen, hh.mpr hconn, hne]
  exact key es initialHandler (by simp [initialHandler])

/-! ### C2: bounded buffer with most-recent-suffix overflow policy -/

theorem capBuffer_eq_drop (k : Nat) (l : List Nat) :
    capBuffer k l = l.drop (l.length - k) := by
  unfold capBuffer lastBytes
  by_cases hk : k < l.length
  · simp [hk]
  · have h0 : l.length - k = 0 := by omega
    simp [hk, h0]

theorem length_capBuffer (k : Nat) (l : List Nat) :
    (capBuffer k l).length = min l.length k := by
  rw [capBuffer_eq_drop, List.length_drop]
  omega

theorem capBuffer_append (k : Nat) (x a : List Nat) :
    capBuffer k (capBuffer k x ++ a) = capBuffer k (x ++ a) := by
  simp only [capBuffer_eq_drop]
  rw [← List.drop_append_of_le_length (by omega : x.length - k ≤ x.length)]
  rw [List.drop_drop]
  congr 1
  simp only [List.length_append, List.length_drop]
  omega

theorem capBuffer_nil (k : Nat) : capBuffer k [] = [] := by
  simp [capBuffer]

/-- Iterating `handleAudioData` on a streaming session accumulates the
appends, keeping only the most recent `maxBufferSize` bytes of their
logical concatenation. -/
theorem runAppends_streaming (ws : Nat) (as : List (List Nat)) :
    ∀ (h : TitlingHandler) (c : Connection) (x : List Nat),
      mapGet h.activeConnections ws = some c →
      c.isStreaming = true →
      c.audioBuffer = capBuffer h.maxBufferSize x →
      mapGet (runAppends h ws as).1.activeConnections ws =
          some { c with audioBuffer := capBuffer h.maxBufferSize (x ++ as.flatten) } ∧
        (runAppends h ws as).1.maxBufferSize = h.maxBufferSize ∧
        (runAppends h ws as).2 = [] := by
  induction as with
  | nil =>
    intro h c x hget hs hbuf
    refine ⟨?_, rfl, rfl⟩
    show mapGet h.activeConnections ws = _
    rw [hget, List.flatten_nil, List.append_nil, ← hbuf]
  | cons a rest ih =>
    intro h c x hget hs hbuf
    have hstep : handleAudioData h ws a =
        ({ h with activeConnections :=
            mapSet h.activeConnections ws { c with audioBuffer := capBuffer h.maxBufferSize (c.audioBuffer ++ a) } },
         []) := by
      unfold handleAudioData
      rw [hget]
      simp [hs]
    have hbuf2 : capBuffer h.maxBufferSize (c.audioBuffer ++ a) =
        capBuffer h.maxBufferSize (x ++ a) := by
      rw [hbuf, capBuffer_append]
    have hrec := ih
      { h with activeConnections :=
          mapSet h.activeConnections ws { c with audioBuffer := capBuffer h.maxBufferSize (c.audioBuffer ++ a) } }
      { c with audioBuffer := capBuffer h.maxBufferSize (c.audioBuffer ++ a) }
      (x ++ a) (mapGet_mapSet_self _ _ _) hs (by simpa using hbuf2)
    refine ⟨?_, ?_, ?_⟩
    · show mapGet (runAppends (handleAudioData h ws a).1 ws rest).1.activeConnections ws = _
      rw [hstep]
      rw [hrec.1]
      simp [List.append_assoc]
    · show (runAppends (handleAudioData h ws a).1 ws rest).1.maxBufferSize = _
      rw [hstep]
      exact hrec.2.1
    · show (handleAudioData h ws a).2 ++ (runAppends (handleAudioData h ws a).1 ws rest).2 = []
      rw [hstep]
      simpa using hrec.2.2

/-- C2: starting from a streaming session with an empty buffer, the buffer
length stays at most `maxBufferSize` after every `handleAudioData` mutation,
and once the logical concatenation of the appended bytes exceeds
`maxBufferSize` the buffer holds exactly the most recent `maxBufferSize`
bytes of that concatenation. -/
theorem buffer_bound_and_overflow_suffix (h : TitlingHandler) (ws : Nat) (c : Connection)
    (hget : mapGet h.activeConnections ws = some c)
    (hs : c.isStreaming = true) (hempty : c.audioBuffer = []) :
    (∀ (as : List (List Nat)) (c2 : Connection),
        mapGet (runAppends h ws as).1.activeConnections ws = some c2 →
        c2.audioBuffer.length ≤ h.maxBufferSize) ∧
    (∀ as : List (List Nat), h.maxBufferSize < as.flatten.length →
        mapGet (runAppends h ws as).1.activeConnections ws =
          some { c with audioBuffer := lastBytes h.maxBufferSize as.flatten } ∧
        (lastBytes h.maxBufferSize as.flatten).length = h.maxBufferSize) := by
  have hbuf : c.audioBuffer = capBuffer h.maxBufferSize [] := by
    rw [hempty, capBuffer_nil]
  constructor
  · intro as c2 hc2
    have hrec := runAppends_streaming ws as h c [] hget hs hbuf
    rw [hrec.1] at hc2
    have hc2e : c2 = { c with audioBuffer := capBuffer h.maxBufferSize ([] ++ as.flatten) } :=
      (Option.some_injective _ hc2.symm)
    rw [hc2e]
    show (capBuffer h.maxBufferSize ([] ++ as.flatten)).length ≤ h.maxBufferSize
    rw [length_capBuffer]
    omega
  · intro as hover
    have hrec := runAppends_streaming ws as h c [] hget hs hbuf
    have hcap : capBuffer h.maxBufferSize ([] ++ as.flatten) =
        lastBytes h.maxBufferSize as.flatten := by
      simp only [List.nil_append]
      unfold capBuffer
      rw [if_pos hover]
    constructor
    · rw [hrec.1, hcap]
    · unfold lastBytes
      rw [List.length_drop]
      omega

/-- C2 witness: five bytes appended in three calls to the 3-byte-capped
`tinyHandler` leave exactly the most recent three bytes. -/
theorem buffer_bound_and_overflow_suffix_witness :
    mapGet (runAppends tinyHandler 0 [[1, 2], [3, 4], [5]]).1.activeConnections 0 =
      some { tinyConnection with
        audioBuffer := lastBytes tinyHandler.maxBufferSize [[1, 2], [3, 4], [5]].flatten } ∧
    (lastBytes tinyHandler.maxBufferSize [[1, 2], [3, 4], [5]].flatten).length =
      tinyHandler.maxBufferSize :=
  (buffer_bound_and_overflow_suffix tinyHandler 0 tinyConnection (by decide) (by decide)
    (by decide)).2 [[1, 2], [3, 4], [5]] (by decide)

/-! ### Shared characterization of the drain path of one tick -/

/-- In the drain case (selected session with at least `chunkSize` buffered
bytes), one tick replaces the selected buffer by its suffix past the chunk
and issues exactly one backend call carrying the first `chunkSize` bytes
together with the session id and processing options, for every backend
outcome. -/
theorem processAudioBuffers_drain (h : TitlingHandler) (cfg : Config) (outcome : SttOutcome)
    (freshId : String) (now : Nat) (ws : Nat) (c : Connection) (rest : List (Nat × Connection))
    (hsel : activeStreams h = (ws, c) :: rest) (hlen : h.chunkSize ≤ c.audioBuffer.length) :
    (processAudioBuffers h cfg outcome freshId now).handler =
      { h with activeConnections :=
          mapSet h.activeConnections ws { c with audioBuffer := c.audioBuffer.drop h.chunkSize } } ∧
    (processAudioBuffers h cfg outcome freshId now).calls =
      [{ audio := c.audioBuffer.take h.chunkSize, connectionId := c.id,
         sourceLanguage := cfg.sourceLanguage, targetLanguage := cfg.targetLanguage,
         enableTranslation := cfg.enableTranslation }] := by
  unfold processAudioBuffers
  simp only [hsel]
  rw [if_pos hlen]
  rcases outcome with (_ | res) | e
  · exact ⟨rfl, rfl⟩
  · by_cases ht : res.text = "" <;> simp [ht]
  · exact ⟨rfl, rfl⟩

/-! ### C3: FIFO drain of exactly one chunk -/

/-- C3: when the scheduler selects a session (head of the active-streams
filter) whose buffer holds `L ≥ chunkSize` bytes, one tick removes exactly
the first `chunkSize` bytes, hands exactly those bytes to the backend with
the session id, languages and translation flag, and leaves a buffer of
exactly `L - chunkSize` bytes equal to the original suffix from offset
`chunkSize`, in original order; when `L < chunkSize` the tick changes
nothing and issues no call and no event. -/
theorem drain_chunk_fifo (h : TitlingHandler) (cfg : Config) (outcome : SttOutcome)
    (freshId : String) (now : Nat) (ws : Nat) (c : Connection) (rest : List (Nat × Connection))
    (hsel : activeStreams h = (ws, c) :: rest) :
    (h.chunkSize ≤ c.audioBuffer.length →
      (processAudioBuffers h cfg outcome freshId now).calls =
        [{ audio := c.audioBuffer.take h.chunkSize, connectionId := c.id,
           sourceLanguage := cfg.sourceLanguage, targetLanguage := cfg.targetLanguage,
           enableTranslation := cfg.enableTranslation }] ∧
      mapGet (processAudioBuffers h cfg outcome freshId now).handler.activeConnections ws =
        some { c with audioBuffer := c.audioBuffer.drop h.chunkSize } ∧
      (c.audioBuffer.drop h.chunkSize).length = c.audioBuffer.length - h.chunkSize ∧
      c.audioBuffer.take h.chunkSize ++ c.audioBuffer.drop h.chunkSize = c.audioBuffer) ∧
    (c.audioBuffer.length < h.chunkSize →
      processAudioBuffers h cfg outcome freshId now = { handler := h, events := [], calls := [] }) := by
  constructor
  · intro hlen
    have hdrain := processAudioBuffers_drain h cfg outcome freshId now ws c rest hsel hlen
    refine ⟨hdrain.2, ?_, List.length_drop _ _, List.take_append_drop _ _⟩
    rw [hdrain.1]
    exact mapGet_mapSet_self _ _ _
  · intro hshort
    unfold processAudioBuffers
    simp only [hsel]
    rw [if_neg (by omega)]

/-- C3 witness: one tick on `drainHandler` (chunk size 2, buffer of five
bytes) hands exactly the first two bytes to the backend and leaves the
three-byte suffix. -/
theorem drain_chunk_fifo_witness :
    activeStreams drainHandler = [(2, drainConnection)] ∧
    drainHandler.chunkSize ≤ drainConnection.audioBuffer.length ∧
    ((processAudioBuffers drainHandler demoConfig (SttOutcome.success none) "u1" 3).calls =
        [{ audio := [10, 11], connectionId := "d", sourceLanguage := "sr",
           targetLanguage := "en", enableTranslation := true }] ∧
      mapGet (processAudioBuffers drainHandler demoConfig
          (SttOutcome.success none) "u1" 3).handler.activeConnections 2 =
        some { drainConnection with audioBuffer := [12, 13, 14] } ∧
      ([12, 13, 14] : List Nat).length = drainConnection.audioBuffer.length - drainHandler.chunkSize ∧
      [10, 11] ++ [12, 13, 14] = drainConnection.audioBuffer) :=
  ⟨by decide, by decide,
    (drain_chunk_fifo drainHandler demoConfig (SttOutcome.success none) "u1" 3 2 drainConnection []
      (by decide)).1 (by decide)⟩

/-! ### C5: backend failure handling -/

/-- C5: when the selected session holds at least `chunkSize` buffered bytes
and the backend call rejects, the tick emits exactly one `error` event
carrying the failure description, the session keeps `isStreaming = true`,
the failed chunk is not returned to the buffer (the buffer is exactly the
suffix past the chunk), and the resulting handler state is identical to the
state an absent-result tick would leave, so the next tick proceeds normally
on newly accumulated audio. -/
theorem backend_failure_error_event (h : TitlingHandler) (cfg : Config) (e : String)
    (freshId : String) (now : Nat) (ws : Nat) (c : Connection) (rest : List (Nat × Connection))
    (hsel : activeStreams h = (ws, c) :: rest) (hlen : h.chunkSize ≤ c.audioBuffer.length) :
    (processAudioBuffers h cfg (SttOutcome.failure e) freshId now).events = [Event.error e] ∧
    c.isStreaming = true ∧
    mapGet (processAudioBuffers h cfg
        (SttOutcome.failure e) freshId now).handler.activeConnections ws =
      some { c with audioBuffer := c.audioBuffer.drop h.chunkSize } ∧
    (processAudioBuffers h cfg (SttOutcome.failure e) freshId now).handler =
      (processAudioBuffers h cfg (SttOutcome.success none) freshId now).handler := by
  have hmem := activeStreams_head_mem h ws c rest hsel
  have hfail := processAudioBuffers_drain h cfg (SttOutcome.failure e) freshId now ws c rest hsel hlen
  have habs := processAudioBuffers_drain h cfg (SttOutcome.success none) freshId now ws c rest hsel hlen
  refine ⟨?_, hmem.2.1, ?_, ?_⟩
  · unfold processAudioBuffers
    simp only [hsel]
    rw [if_pos hlen]
  · rw [hfail.1]
    exact mapGet_mapSet_self _ _ _
  · rw [hfail.1, habs.1]

/-- C5 witness: a failing backend call on `drainHandler` emits exactly one
error event, keeps the session streaming, and leaves the drained buffer. -/
theorem backend_failure_error_event_witness :
    activeStreams drainHandler = [(2, drainConnection)] ∧
    drainHandler.chunkSize ≤ drainConnection.audioBuffer.length ∧
    ((processAudioBuffers drainHandler demoConfig (SttOutcome.failure "quota") "u3" 6).events =
        [Event.error "quota"] ∧
      drainConnection.isStreaming = true ∧
      mapGet (processAudioBuffers drainHandler demoConfig
          (SttOutcome.failure "quota") "u3" 6).handler.activeConnections 2 =
        some { drainConnection with audioBuffer := [12, 13, 14] } ∧
      (processAudioBuffers drainHandler demoConfig (SttOutcome.failure "quota") "u3" 6).handler =
        (processAudioBuffers drainHandler demoConfig (SttOutcome.success none) "u3" 6).handler) :=
  ⟨by decide, by decide,
    backend_failure_error_event drainHandler demoConfig "quota" "u3" 6 2 drainConnection []
      (by decide) (by decide)⟩

/-! ### C9: subtitle emission discipline -/

/-- One absent-result tick emits no events, whatever the handler state. -/
theorem absent_tick_no_events (g : TitlingHandler) (cfg : Config) (freshId : String) (now : Nat) :
    (processAudioBuffers g cfg (SttOutcome.success none) freshId now).events = [] := by
  unfold processAudioBuffers
  split
  · rfl
  · split
    · rfl
    · rfl

/-- Any number of consecutive absent-result ticks emits no events at all. -/
theorem runAbsentTicks_no_events (cfg : Config) (freshId : String) (now : Nat) :
    ∀ (n : Nat) (g : TitlingHandler), (runAbsentTicks g cfg freshId now n).2 = [] := by
  intro n
  induction n with
  | zero => intro g; rfl
  | succ k ih =>
    intro g
    show (processAudioBuffers g cfg (SttOutcome.success none) freshId now).events ++
      (runAbsentTicks (processAudioBuffers g cfg
        (SttOutcome.success none) freshId now).handler cfg freshId now k).2 = []
    rw [absent_tick_no_events, ih]
    rfl

/-- C9: with a selected session holding at least `chunkSize` buffered
bytes, a tick emits a `subtitle` event exactly when the backend result is
present with non-empty text, and that event carries the freshly generated
id, the current timestamp and the result fields; absent results produce no
`subtitle` and no `error` event, for every number of consecutive
absent-returning ticks. -/
theorem subtitle_iff_nonempty_text (h : TitlingHandler) (cfg : Config)
    (freshId : String) (now : Nat) (ws : Nat) (c : Connection) (rest : List (Nat × Connection))
    (hsel : activeStreams h = (ws, c) :: rest) (hlen : h.chunkSize ≤ c.audioBuffer.length) :
    (∀ res : SttResult,
      (processAudioBuffers h cfg (SttOutcome.success (some res)) freshId now).events =
        if res.text = "" then []
        else [Event.subtitle { id := freshId, text := res.text,
                               translatedText := res.translatedText,
                               confidence := res.confidence, timestamp := now,
                               connectionId := c.id, language := res.language }]) ∧
    (∀ (g : TitlingHandler) (n : Nat), (runAbsentTicks g cfg freshId now n).2 = []) := by
  constructor
  · intro res
    unfold processAudioBuffers
    simp only [hsel]
    rw [if_pos hlen]
    by_cases ht : res.text = "" <;> simp [ht]
  · intro g n
    exact runAbsentTicks_no_events cfg freshId now n g

/-- C9 witness: on `drainHandler`, a present result with non-empty text
yields exactly one subtitle event carrying the fresh id and timestamp,
while three consecutive absent-returning ticks yield no events. -/
theorem subtitle_iff_nonempty_text_witness :
    activeStreams drainHandler = [(2, drainConnection)] ∧
    drainHandler.chunkSize ≤ drainConnection.audioBuffer.length ∧
    (processAudioBuffers drainHandler demoConfig
        (SttOutcome.success (some demoResult)) "u2" 4).events =
      [Event.subtitle { id := "u2", text := "zdravo", translatedText := some "hello",
                        confidence := 9, timestamp := 4, connectionId := "d",
                        language := "sr" }] ∧
    (runAbsentTicks drainHandler demoConfig "u2" 4 3).2 = [] := by
  refine ⟨by decide, by decide, ?_, ?_⟩
  · have h2 := (subtitle_iff_nonempty_text drainHandler demoConfig "u2" 4 2 drainConnection []
      (by decide) (by decide)).1 demoResult
    simpa using h2
  · exact (subtitle_iff_nonempty_text drainHandler demoConfig "u2" 4 2 drainConnection []
      (by decide) (by decide)).2 drainHandler 3

/-! ### C10: stop_stream frame effect -/

/-- A tick never touches a session whose `isStreaming` flag is false: only
the head of the active-streams filter is mutated, and that session streams. -/
theorem tick_preserves_nonstreaming (h : TitlingHandler) (cfg : Config) (outcome : SttOutcome)
    (freshId : String) (now : Nat) (ws : Nat) (c : Connection)
    (hnd : (h.activeConnections.map Prod.fst).Nodup)
    (hget : mapGet h.activeConnections ws = some c)
    (hstream : c.isStreaming = false) :
    mapGet (processAudioBuffers h cfg outcome freshId now).handler.activeConnections ws =
      some c := by
  rcases hsel : activeStreams h with _ | ⟨⟨w2, c2⟩, tail⟩
  · unfold processAudioBuffers
    simp only [hsel]
    exact hget
  · have hmem := activeStreams_head_mem h w2 c2 tail hsel
    by_cases hlen : h.chunkSize ≤ c2.audioBuffer.length
    · have hne : w2 ≠ ws := by
        intro hww
        subst hww
        have h2 := mapGet_eq_of_mem_nodup h.activeConnections w2 c2 hnd hmem.1
        rw [hget] at h2
        have hc : c = c2 := by injection h2
        rw [hc, hmem.2.1] at hstream
        cases hstream
      have hdrain := processAudioBuffers_drain h cfg outcome freshId now w2 c2 tail hsel hlen
      rw [hdrain.1]
      show mapGet (mapSet h.activeConnections w2 _) ws = some c
      rw [mapGet_mapSet_ne _ _ _ _ (Ne.symm hne)]
      exact hget
    · unfold processAudioBuffers
      simp only [hsel]
      rw [if_neg hlen]
      exact hget

/-- C10: for a registered session (with unique map keys), `stop_stream`
changes only the `isStreaming` flag and the activity timestamp — the buffer
and all other sessions are untouched, the reply is `stream_stopped` — and
afterwards no tick drains that session while it is not streaming. -/
theorem stop_stream_only_flag (h : TitlingHandler) (ws : Nat) (c : Connection) (now : Nat)
    (hnd : (h.activeConnections.map Prod.fst).Nodup)
    (hget : mapGet h.activeConnections ws = some c) :
    mapGet (handleMessage h ws ClientMessage.stopStream now).1.activeConnections ws =
      some { c with isStreaming := false, lastActivity := now } ∧
    (handleMessage h ws ClientMessage.stopStream now).2 = [OutMsg.streamStopped] ∧
    (∀ w : Nat, w ≠ ws →
      mapGet (handleMessage h ws ClientMessage.stopStream now).1.activeConnections w =
        mapGet h.activeConnections w) ∧
    (∀ (cfg : Config) (outcome : SttOutcome) (freshId : String) (t : Nat),
      mapGet (processAudioBuffers (handleMessage h ws ClientMessage.stopStream now).1
          cfg outcome freshId t).handler.activeConnections ws =
        some { c with isStreaming := false, lastActivity := now }) := by
  have hmsg : handleMessage h ws ClientMessage.stopStream now =
      ({ h with activeConnections :=
          mapSet (mapSet h.activeConnections ws { c with lastActivity := now }) ws { c with isStreaming := false, lastActivity := now } },
       [OutMsg.streamStopped]) := by
    unfold handleMessage handleStopStream
    rw [hget]
    simp [mapGet_mapSet_self]
  refine ⟨?_, ?_, ?_, ?_⟩
  · rw [hmsg]
    exact mapGet_mapSet_self _ _ _
  · rw [hmsg]
  · intro w hw
    rw [hmsg]
    show mapGet (mapSet (mapSet h.activeConnections ws _) ws _) w = _
    rw [mapGet_mapSet_ne _ _ _ _ hw, mapGet_mapSet_ne _ _ _ _ hw]
  · intro cfg outcome freshId t
    apply tick_preserves_nonstreaming
    · rw [hmsg]
      show ((mapSet (mapSet h.activeConnections ws _) ws _).map Prod.fst).Nodup
      rw [map_fst_mapSet _ _ _ _ (mapGet_mapSet_self _ _ _), map_fst_mapSet _ _ _ _ hget]
      exact hnd
    · rw [hmsg]
      exact mapGet_mapSet_self _ _ _
    · rfl

/-- C10 witness: `stop_stream` on the streaming session of `demoHandler`
clears only the flag and timestamp, keeps the three buffered bytes, and a
following tick leaves the stopped session untouched. -/
theorem stop_stream_only_flag_witness :
    mapGet (handleMessage demoHandler 0 ClientMessage.stopStream 8).1.activeConnections 0 =
      some { demoConnection with isStreaming := false, lastActivity := 8 } ∧
    (handleMessage demoHandler 0 ClientMessage.stopStream 8).2 = [OutMsg.streamStopped] ∧
    mapGet (processAudioBuffers (handleMessage demoHandler 0 ClientMessage.stopStream 8).1
        demoConfig (SttOutcome.success none) "u4" 9).handler.activeConnections 0 =
      some { demoConnection with isStreaming := false, lastActivity := 8 } := by
  have h2 := stop_stream_only_flag demoHandler 0 demoConnection 8 (by decide) (by decide)
  exact ⟨h2.1, h2.2.1, h2.2.2.2 demoConfig (SttOutcome.success none) "u4" 9⟩

/-! ### C1: in-flight backend calls per session -/

/-- C1 counterexample: from an empty handler, a trace in which a second
tick fires before the first backend call completes leaves two
`processAudio` calls for the same session simultaneously outstanding — the
code holds no per-session in-flight marker, so the claimed per-session
mutual exclusion is false. -/
theorem overlapping_inflight_calls_same_session :
    ¬ (∀ (h0 : TitlingHandler), h0.activeConnections = [] → h0.isProcessing = false →
        ∀ (es : List SchedEvent) (ws : Nat),
          ((runSched { handler := h0, inflight := [] } es).inflight.count ws) ≤ 1) := by
  intro hcl
  have h2 := hcl
    { activeConnections := [], isProcessing := false,
      maxBufferSize := 100, chunkSize := 3, processingInterval := 500 }
    rfl rfl
    [SchedEvent.connect 0 "s" 0, SchedEvent.clientMsg 0 ClientMessage.startStream 1,
     SchedEvent.clientMsg 0 (ClientMessage.audio [1, 2, 3, 4, 5, 6]) 2,
     SchedEvent.tick, SchedEvent.tick] 0
  revert h2
  decide

/-- C1 amended: each scheduler tick starts at most one backend call
system-wide; since the code holds no per-session in-flight marker, a
session with an outstanding call may be selected again by a later tick and
several calls for the same session can be in flight concurrently. -/
theorem tick_starts_at_most_one_call (s : SchedState) :
    (tickStart s).inflight.length ≤ s.inflight.length + 1 := by
  unfold tickStart
  split
  · split
    · omega
    · split
      · simp
      · omega
  · omega
